import Mathlib

/-!
Shallow embedding of the ChessWrapped statistics service
(src/src/services/chess.service.ts) together with proofs about the claims
of its specification.

Modelling conventions:
* JS numbers on the paths modelled here are integers or exact rationals;
  divisions that JavaScript performs on IEEE doubles are modelled with
  exact rational arithmetic.  Where a division by zero actually occurs in
  the source (the playing-pattern averages) the JavaScript special values
  NaN and Infinity are modelled explicitly by the type JSNum.
* A date string produced by new Date(t * 1000).toISOString().split("T")[0]
  is in bijection with the UTC day index t / 86400, and the lexicographic
  order of such ISO strings equals the numeric order of the day indices,
  so calendar days are modelled as the natural number t / 86400.
* JS Map objects are modelled as association lists (insertion order
  preserved, unique keys maintained by replace-or-append updates), or as
  plain functions when only lookup and delete matter (the cache).
* Math.round x is modelled as the floor of x + 1/2, which agrees with
  JavaScript rounding on every finite value.
* Array.prototype.sort with a comparator is modelled by a stable
  insertion sort (modern engines implement a stable sort).
-/

namespace CW

/-- Lower-casing of a string, modelling String.prototype.toLowerCase on
the ASCII usernames the service compares. -/
def lowerStr (s : String) : String := ⟨s.data.map Char.toLower⟩

/-- Whether the first list is an initial segment of the second is not
needed; this test asks whether needle occurs at the very front of hay. -/
def startsWithList : List Char → List Char → Bool
  | _, [] => true
  | [], _ :: _ => false
  | a :: as, b :: bs => a = b && startsWithList as bs

/-- Occurrence of needle anywhere in hay. -/
def containsList : List Char → List Char → Bool
  | [], needle => startsWithList [] needle
  | a :: t, needle => startsWithList (a :: t) needle || containsList t needle

/-- Substring test modelling String.prototype.includes. -/
def strIncludes (hay needle : String) : Bool := containsList hay.data needle.data

/-- Number of matches of the global regular expression matching one or
more digits followed by a dot (used by the source to count moves in a
PGN).  Each such match ends at a dot immediately preceded by a digit, and
distinct matches end at distinct such dots, so the match count equals the
number of adjacent digit-dot pairs. -/
def countMoves (s : String) : Nat :=
  (s.data.zip s.data.tail).countP (fun p => p.1.isDigit && p.2 = '.')

/-- Math.round on a finite value: floor (x + 1/2). -/
def jsRound (q : ℚ) : ℤ := ⌊q + 1 / 2⌋

/-- A JavaScript number that may be NaN or Infinity (only non-negative
infinity can arise on the modelled paths). -/
inductive JSNum where
  | nan : JSNum
  | inf : JSNum
  | num : ℚ → JSNum
deriving DecidableEq

/-- Division of two natural counts as JavaScript performs it: 0/0 is NaN
and n/0 is Infinity for positive n. -/
def jsDivN (a b : ℕ) : JSNum :=
  if b = 0 then (if a = 0 then JSNum.nan else JSNum.inf) else JSNum.num ((a : ℚ) / b)

/-- Math.round extended to the JavaScript special values. -/
def jsRoundJS : JSNum → JSNum
  | JSNum.nan => JSNum.nan
  | JSNum.inf => JSNum.inf
  | JSNum.num q => JSNum.num (jsRound q)

/-- Insert a into an already sorted list, keeping every b with le b a in
front of a (so a lands behind its ties: stability). -/
def insertKeep (le : α → α → Bool) (a : α) : List α → List α
  | [] => [a]
  | b :: t => if le b a then b :: insertKeep le a t else a :: b :: t

/-- Stable sort modelling Array.prototype.sort with a consistent
comparator; le b a means b may stay in front of a. -/
def stableSortBy (le : α → α → Bool) (l : List α) : List α :=
  l.foldl (fun acc a => insertKeep le a acc) []

/-- Lookup in an association list (the JS Map get). -/
def lookA [DecidableEq κ] (k : κ) : List (κ × α) → Option α
  | [] => none
  | (k', v) :: t => if k' = k then some v else lookA k t

/-- Replace-or-append update of an association list (the JS Map set). -/
def setA [DecidableEq κ] (k : κ) (v : α) : List (κ × α) → List (κ × α)
  | [] => [(k, v)]
  | (k', v') :: t => if k' = k then (k, v) :: t else (k', v') :: setA k v t

/-- The three recognised time controls. -/
inductive TimeClass where
  | rapid : TimeClass
  | blitz : TimeClass
  | bullet : TimeClass
deriving DecidableEq

/-- One side of a game record. -/
structure Side where
  username : String
  rating : Int
  result : String
deriving DecidableEq

/-- One normalised game record (the Game interface of the service). -/
structure Game where
  time_class : TimeClass
  white : Side
  black : Side
  accuracies : Option (ℚ × ℚ)
  eco : String
  opening : String
  url : String
  end_time : Nat
  rules : String
  pgn : String
deriving DecidableEq

/-- Whether the subject plays the white side (lower-cased comparison, as
in the source). -/
def isWhiteOf (u : String) (g : Game) : Bool := lowerStr g.white.username = lowerStr u

/-- Rating of the subject side of a game. -/
def rateOf (u : String) (g : Game) : Int :=
  if isWhiteOf u g then g.white.rating else g.black.rating

/-- Result code of the subject side of a game. -/
def resultOf (u : String) (g : Game) : String :=
  if isWhiteOf u g then g.white.result else g.black.result

/-- Username of the opponent side of a game. -/
def opponentOf (u : String) (g : Game) : String :=
  if isWhiteOf u g then g.black.username else g.white.username

/-- Rating of the opponent side of a game. -/
def oppRatingOf (u : String) (g : Game) : Int :=
  if isWhiteOf u g then g.black.rating else g.white.rating

/-- UTC day index of an epoch-second timestamp; the date part of
toISOString is in bijection with this number. -/
def dayOf (t : Nat) : Nat := t / 86400

/-- UTC hour of day (the source uses getHours, which depends on the
server time zone; a UTC zone is assumed, consistently with the UTC dates
used everywhere else). -/
def hourOf (t : Nat) : Nat := t / 3600 % 24

/-- UTC day of week, 0 = Sunday (epoch day zero was a Thursday). -/
def dayIdxOf (t : Nat) : Nat := (t / 86400 + 4) % 7

/-- A rapid/blitz/bullet-indexed record, as the source builds object
literals with those three keys. -/
structure PerTC (α : Type) where
  rapid : α
  blitz : α
  bullet : α
deriving DecidableEq

/-- Field selection of a PerTC record by time control. -/
def PerTC.get (p : PerTC α) : TimeClass → α
  | TimeClass.rapid => p.rapid
  | TimeClass.blitz => p.blitz
  | TimeClass.bullet => p.bullet

/-! Rating Progression analyzer (generateRatingStats, service lines
539-677).  Dates are UTC day indices; an empty date string sentinel is
modelled as none. -/

/-- One point of a rating-progress series. -/
structure DatedRating where
  date : Nat
  rating : Int
deriving DecidableEq

/-- An entry of bestRatingGains. -/
structure GainRec where
  date : Nat
  gain : Int
deriving DecidableEq

/-- An entry of worstRatingLosses. -/
structure LossRec where
  date : Nat
  loss : Int
deriving DecidableEq

/-- An entry of peakRatings. -/
structure PeakRec where
  rating : Int
  date : Nat
deriving DecidableEq

/-- The bestRatingDay record; the initial date is the empty string in the
source, modelled as none. -/
structure BestDay where
  date : Option Nat
  format : TimeClass
  gain : Int
deriving DecidableEq

/-- The run metadata of the ratings section. -/
structure RatingsMeta where
  firstGameDate : Option Nat
  lastGameDate : Option Nat
  totalGamesAnalyzed : Nat
deriving DecidableEq

/-- The ratings section of the report. -/
structure RatingsStats where
  currentRatings : PerTC (Option Int)
  ratingProgress : PerTC (List DatedRating)
  bestRatingGains : PerTC (Option GainRec)
  worstRatingLosses : PerTC (Option LossRec)
  bestRatingDay : BestDay
  peakRatings : PerTC (Option PeakRec)
  metadata : RatingsMeta
deriving DecidableEq

/-- The mutable state of the per-time-control loop of
generateRatingStats: maxGainInDay, maxLossInDay, bestGainDate,
worstLossDate, the dailyRatingChanges map, prevRating, and the values of
currentRatings, peakRatings, ratingProgress and bestRatingDay being
built. -/
structure RSState where
  maxGain : Int
  maxLoss : Int
  bestGainDate : Option Nat
  worstLossDate : Option Nat
  daily : List (Nat × Int)
  prev : Int
  current : Option Int
  peak : Option PeakRec
  progress : List DatedRating
  best : BestDay
deriving DecidableEq

/-- Value stored for a day in the dailyRatingChanges map, defaulting to
zero (the source writes dailyRatingChanges.get(date) || 0). -/
def dailyGet (m : List (Nat × Int)) (d : Nat) : Int := (lookA d m).getD 0

/-- The body of the forEach over one time control in generateRatingStats
(lines 590-640): one game updates progress, current, peak, the daily
net-change map, the running best gain and worst loss, and the cross-format
best rating day. -/
def rsStep (u : String) (tc : TimeClass) (s : RSState) (g : Game) : RSState :=
  let r := rateOf u g
  let d := dayOf g.end_time
  let v := dailyGet s.daily d + (r - s.prev)
  let mg := if v > s.maxGain then v else s.maxGain
  let bgd := if v > s.maxGain then some d else s.bestGainDate
  let ml := if v < s.maxLoss then v else s.maxLoss
  let wld := if v < s.maxLoss then some d else s.worstLossDate
  { maxGain := mg
    maxLoss := ml
    bestGainDate := bgd
    worstLossDate := wld
    daily := setA d v s.daily
    prev := r
    current := some r
    peak := match s.peak with
      | none => some ⟨r, d⟩
      | some p => if r > p.rating then some ⟨r, d⟩ else some p
    progress := s.progress ++ [⟨d, r⟩]
    best := if mg > s.best.gain then ⟨bgd, tc, mg⟩ else s.best }

/-- The per-time-control outputs of generateRatingStats. -/
structure TCOut where
  current : Option Int
  progress : List DatedRating
  gain : Option GainRec
  loss : Option LossRec
  peak : Option PeakRec
  best : BestDay
deriving DecidableEq

/-- Processing of one time control in generateRatingStats: the loop body
over the filtered games (prevRating is initialised with the first game
rating, making the first net change zero), followed by the date sort of
ratingProgress and the conversion of the sentinel empty date into a null
gain or loss record (lines 579-660). -/
def processTC (u : String) (tc : TimeClass) (gs : List Game) (best0 : BestDay) : TCOut :=
  match gs with
  | [] => ⟨none, [], none, none, none, best0⟩
  | g :: _ =>
    let s := gs.foldl (rsStep u tc)
      ⟨0, 0, none, none, [], rateOf u g, none, none, [], best0⟩
    { current := s.current
      progress := stableSortBy (fun a b => a.date ≤ b.date) s.progress
      gain := s.bestGainDate.map (fun d => ⟨d, s.maxGain⟩)
      loss := s.worstLossDate.map (fun d => ⟨d, |s.maxLoss|⟩)
      peak := s.peak
      best := s.best }

/-- generateRatingStats (lines 539-677): the three time controls are
processed in the order rapid, blitz, bullet, threading the shared
bestRatingDay record through all of them. -/
def generateRatingStats (games : List Game) (u : String) : RatingsStats :=
  let best0 : BestDay := ⟨none, TimeClass.blitz, 0⟩
  let oR := processTC u TimeClass.rapid (games.filter (fun g => g.time_class = TimeClass.rapid)) best0
  let oB := processTC u TimeClass.blitz (games.filter (fun g => g.time_class = TimeClass.blitz)) oR.best
  let oU := processTC u TimeClass.bullet (games.filter (fun g => g.time_class = TimeClass.bullet)) oB.best
  { currentRatings := ⟨oR.current, oB.current, oU.current⟩
    ratingProgress := ⟨oR.progress, oB.progress, oU.progress⟩
    bestRatingGains := ⟨oR.gain, oB.gain, oU.gain⟩
    worstRatingLosses := ⟨oR.loss, oB.loss, oU.loss⟩
    bestRatingDay := oU.best
    peakRatings := ⟨oR.peak, oB.peak, oU.peak⟩
    metadata :=
      { firstGameDate := games.head?.map (fun g => dayOf g.end_time)
        lastGameDate := games.getLast?.map (fun g => dayOf g.end_time)
        totalGamesAnalyzed := games.length } }

/-! Declarative description of the running daily net change, used to
characterise bestRatingGains and worstRatingLosses. -/

/-- The chronological list of (day, rating change) pairs of a category;
prev is the rating the change of the next game is measured against, so
passing the first game rating makes the first change zero. -/
def dayChanges (u : String) : Int → List Game → List (Nat × Int)
  | _, [] => []
  | prev, g :: rest => (dayOf g.end_time, rateOf u g - prev) :: dayChanges u (rateOf u g) rest

/-- Total net change of one day over a list of (day, change) pairs. -/
def daySum (d : Nat) (pcs : List (Nat × Int)) : Int :=
  ((pcs.filter (fun p => p.1 = d)).map (fun p => p.2)).sum

/-- For each position of the remaining list, the pair of its day and the
running net change of that day over everything seen so far including the
position itself. -/
def runVals (seen : List (Nat × Int)) : List (Nat × Int) → List (Nat × Int)
  | [] => []
  | (d, c) :: t => (d, daySum d (seen ++ [(d, c)])) :: runVals (seen ++ [(d, c)]) t

/-- Maximum tracking with first-attainment date, on a strict comparison. -/
def maxStep (acc : Int × Option Nat) (p : Nat × Int) : Int × Option Nat :=
  if p.2 > acc.1 then (p.2, some p.1) else acc

/-- Minimum tracking with first-attainment date, on a strict comparison. -/
def minStep (acc : Int × Option Nat) (p : Nat × Int) : Int × Option Nat :=
  if p.2 < acc.1 then (p.2, some p.1) else acc

/-- Declarative counterpart of bestRatingGains for one category: the
largest value reached by the running within-day net change, with the day
it is first reached on, or none when the running value never becomes
positive. -/
def specBestGain (u : String) (gs : List Game) : Option GainRec :=
  match gs with
  | [] => none
  | g :: _ =>
    let pr := (runVals [] (dayChanges u (rateOf u g) gs)).foldl maxStep (0, none)
    pr.2.map (fun d => ⟨d, pr.1⟩)

/-- Declarative counterpart of worstRatingLosses for one category: the
most negative value reached by the running within-day net change, as an
absolute value, with the day it is first reached on. -/
def specWorstLoss (u : String) (gs : List Game) : Option LossRec :=
  match gs with
  | [] => none
  | g :: _ =>
    let pr := (runVals [] (dayChanges u (rateOf u g) gs)).foldl minStep (0, none)
    pr.2.map (fun d => ⟨d, |pr.1|⟩)

/-! Format-Specific analyzer (isFormatEligible and
generateFormatSpecificStats, service lines 679-821). -/

/-- An aggregated opening of the per-colour maps of the format-specific
analyzer. -/
structure OpeningAgg where
  name : String
  count : Nat
  wins : Nat
deriving DecidableEq

/-- A processed opening entry inside a format-specific section. -/
structure OpeningEntry where
  name : String
  count : Nat
  winRate : Int
deriving DecidableEq

/-- Win or loss sub-classification counters. -/
structure WinLossDetail where
  total : Nat
  byResignation : Nat
  onTime : Nat
  byCheckmate : Nat
deriving DecidableEq

/-- Draw sub-classification counters. -/
structure DrawDetail where
  total : Nat
  byAgreement : Nat
  byRepetition : Nat
  byStalemate : Nat
  byInsufficientMaterial : Nat
deriving DecidableEq

/-- The results block of a format-specific section. -/
structure ResultsBlock where
  wins : WinLossDetail
  draws : DrawDetail
  losses : WinLossDetail
deriving DecidableEq

/-- The all-zero results block the analyzer starts from. -/
def zeroResults : ResultsBlock :=
  ⟨⟨0, 0, 0, 0⟩, ⟨0, 0, 0, 0, 0⟩, ⟨0, 0, 0, 0⟩⟩

/-- A best-win or worst-loss record of a format-specific section. -/
structure BWDetail where
  opponent : String
  opponentRating : Int
  date : Nat
  url : String
deriving DecidableEq

/-- One format-specific section (the FormatStats interface). -/
structure FormatStats where
  gamesPlayed : Nat
  winRate : Int
  ratingProgress : List DatedRating
  openingsAsWhite : List OpeningEntry
  openingsAsBlack : List OpeningEntry
  results : ResultsBlock
  averageGameDuration : Int
  bestWin : Option BWDetail
  worstLoss : Option BWDetail
deriving DecidableEq

/-- Win branch of the outcome classification: the total always counts,
then the termination descriptor is scanned by an else-if chain. -/
def updWin (w : WinLossDetail) (rc : String) : WinLossDetail :=
  let w1 : WinLossDetail := { w with total := w.total + 1 }
  if strIncludes rc "resignation" then { w1 with byResignation := w1.byResignation + 1 }
  else if strIncludes rc "time" then { w1 with onTime := w1.onTime + 1 }
  else if strIncludes rc "checkmate" then { w1 with byCheckmate := w1.byCheckmate + 1 }
  else w1

/-- Draw branch of the outcome classification. -/
def updDraw (w : DrawDetail) (rc : String) : DrawDetail :=
  let w1 : DrawDetail := { w with total := w.total + 1 }
  if strIncludes rc "agreement" then { w1 with byAgreement := w1.byAgreement + 1 }
  else if strIncludes rc "repetition" then { w1 with byRepetition := w1.byRepetition + 1 }
  else if strIncludes rc "stalemate" then { w1 with byStalemate := w1.byStalemate + 1 }
  else if strIncludes rc "insufficient" then { w1 with byInsufficientMaterial := w1.byInsufficientMaterial + 1 }
  else w1

/-- Loss branch of the outcome classification (the final else). -/
def updLoss (w : WinLossDetail) (rc : String) : WinLossDetail :=
  let w1 : WinLossDetail := { w with total := w.total + 1 }
  if strIncludes rc "resignation" then { w1 with byResignation := w1.byResignation + 1 }
  else if strIncludes rc "time" then { w1 with onTime := w1.onTime + 1 }
  else if strIncludes rc "checkmate" then { w1 with byCheckmate := w1.byCheckmate + 1 }
  else w1

/-- The three-way outcome classification of one game (lines 728-759): win
when the subject result is win, draw when the result is repetition,
stalemate or insufficient or the rules string contains drawn, loss
otherwise; resultCode is the rules field of the game. -/
def classifyUpd (res rc : String) (r : ResultsBlock) : ResultsBlock :=
  if res = "win" then { r with wins := updWin r.wins rc }
  else if res = "repetition" ∨ res = "stalemate" ∨ res = "insufficient"
      ∨ strIncludes rc "drawn" = true then
    { r with draws := updDraw r.draws rc }
  else { r with losses := updLoss r.losses rc }

/-- The accumulator of the per-game loop of the format-specific
analyzer. -/
structure FSAcc where
  wins : Nat
  totalDuration : Nat
  progress : List DatedRating
  bestWin : Option BWDetail
  worstLoss : Option BWDetail
  results : ResultsBlock
deriving DecidableEq

/-- The body of the forEach over the format games (lines 723-789). -/
def fsStep (u : String) (acc : FSAcc) (g : Game) : FSAcc :=
  let res := resultOf u g
  let rc := g.rules
  let rating := rateOf u g
  let d := dayOf g.end_time
  let oppR := oppRatingOf u g
  let opp := opponentOf u g
  let bwHit : Bool := res = "win" && (match acc.bestWin with
    | none => true
    | some b => oppR > b.opponentRating)
  let wlHit : Bool := res = "loss" && (match acc.worstLoss with
    | none => true
    | some b => oppR < b.opponentRating)
  { wins := if res = "win" then acc.wins + 1 else acc.wins
    totalDuration := acc.totalDuration + countMoves g.pgn * 2
    progress := acc.progress ++ [⟨d, rating⟩]
    bestWin := if bwHit then some ⟨opp, oppR, d, g.url⟩ else acc.bestWin
    worstLoss := if !bwHit && wlHit then some ⟨opp, oppR, d, g.url⟩ else acc.worstLoss
    results := classifyUpd res rc acc.results }

/-- Projection of an opening aggregation map into output entries, sorted
by descending count (lines 798-806); in the source this map is never
written to, so the argument is always the empty list here. -/
def procOpenings (l : List OpeningAgg) : List OpeningEntry :=
  stableSortBy (fun a b => b.count ≤ a.count)
    (l.map (fun o => ⟨o.name, o.count, jsRound ((o.wins : ℚ) / o.count * 100)⟩))

/-- Processing of one eligible format (lines 691-816).  The
openingsByColor maps declared on lines 692-695 are never inserted into
anywhere in the source, so openings are computed from empty maps. -/
def processFormat (u : String) (formatGames : List Game) : FormatStats :=
  let acc := formatGames.foldl (fsStep u) ⟨0, 0, [], none, none, zeroResults⟩
  { gamesPlayed := formatGames.length
    winRate := jsRound ((acc.wins : ℚ) / formatGames.length * 100)
    ratingProgress := stableSortBy (fun a b => a.date ≤ b.date) acc.progress
    openingsAsWhite := procOpenings []
    openingsAsBlack := procOpenings []
    results := acc.results
    averageGameDuration := jsRound ((acc.totalDuration : ℚ) / formatGames.length)
    bestWin := acc.bestWin
    worstLoss := acc.worstLoss }

/-- Eligibility of a format (lines 679-683): at least 15 games or a share
of total games strictly above one tenth (with no games at all the
JavaScript NaN comparison is false, matching rational division by
zero). -/
def isFormatEligible (games : List Game) (format : TimeClass) : Bool :=
  let formatGames := games.filter (fun g => g.time_class = format)
  let totalGames := games.length
  15 ≤ formatGames.length ∨ ((formatGames.length : ℚ) / totalGames > 1 / 10)

/-- generateFormatSpecificStats (lines 685-821): each eligible format is
given a section; ineligible formats are absent from the output map. -/
def generateFormatSpecificStats (games : List Game) (u : String) :
    PerTC (Option FormatStats) :=
  let mk := fun tc => if isFormatEligible games tc then
    some (processFormat u (games.filter (fun g => g.time_class = tc))) else none
  ⟨mk TimeClass.rapid, mk TimeClass.blitz, mk TimeClass.bullet⟩

/-! Summary analyzer: the format breakdown of generateIntroStats
(lines 374-438).  Only the format breakdown is embedded here; the streak,
month and favourite-format fields of the intro section are carried as
opaque data in the report type below and are not the subject of any
claim. -/

/-- One format counter of the intro breakdown. -/
structure FormatCount where
  count : Nat
  percentage : Int
deriving DecidableEq

/-- The intro format breakdown. -/
structure FormatBreakdown where
  rapid : FormatCount
  blitz : FormatCount
  bullet : FormatCount
deriving DecidableEq

/-- The format breakdown computed by generateIntroStats: per-format game
counts (the forEach of line 421) and percentages rounded to the nearest
integer (lines 434-438); with no games the early return of line 401
leaves all counters zero. -/
def introFormatBreakdown (games : List Game) : FormatBreakdown :=
  if games.length = 0 then ⟨⟨0, 0⟩, ⟨0, 0⟩, ⟨0, 0⟩⟩
  else
    let totalGames := games.length
    let pct := fun (count : Nat) => jsRound ((count : ℚ) / totalGames * 100)
    let cR := games.countP (fun g => g.time_class = TimeClass.rapid)
    let cB := games.countP (fun g => g.time_class = TimeClass.blitz)
    let cU := games.countP (fun g => g.time_class = TimeClass.bullet)
    ⟨⟨cR, pct cR⟩, ⟨cB, pct cB⟩, ⟨cU, pct cU⟩⟩

/-! Playing Pattern analyzer (generatePlayingPatternStats, lines
823-952). -/

/-- Raw games/wins counters of an hour or weekday bucket. -/
structure CountWins where
  games : Nat
  wins : Nat
deriving DecidableEq

/-- An output bucket, with its rounded win rate. -/
structure PPBucket where
  games : Nat
  winRate : Int
deriving DecidableEq

/-- The time-of-day block of the playing-pattern section. -/
structure TimeOfDayStats where
  morning : PPBucket
  afternoon : PPBucket
  evening : PPBucket
  night : PPBucket
  bestTimeToPlay : String
deriving DecidableEq

/-- The day-of-week block of the playing-pattern section. -/
structure DayOfWeekStats where
  monday : PPBucket
  tuesday : PPBucket
  wednesday : PPBucket
  thursday : PPBucket
  friday : PPBucket
  saturday : PPBucket
  sunday : PPBucket
  bestDayToPlay : String
deriving DecidableEq

/-- The longest-game record; the initial empty-string date and format
sentinels are modelled as none. -/
structure LongestGame where
  opponent : String
  date : Option Nat
  format : Option TimeClass
  result : String
  duration : Nat
  url : String
deriving DecidableEq

/-- The playing-pattern section.  The two unguarded divisions are
JavaScript numbers that can be NaN, hence JSNum. -/
structure PlayingPatterns where
  timeOfDay : TimeOfDayStats
  dayOfWeek : DayOfWeekStats
  averageGamesPerDay : JSNum
  totalPlayingTime : Nat
  averageGameDuration : JSNum
  longestGame : LongestGame
deriving DecidableEq

/-- The accumulator of the per-game loop of the playing-pattern
analyzer; uniqueDays models the JS Set of date strings. -/
structure PPAcc where
  morning : CountWins
  afternoon : CountWins
  evening : CountWins
  night : CountWins
  monday : CountWins
  tuesday : CountWins
  wednesday : CountWins
  thursday : CountWins
  friday : CountWins
  saturday : CountWins
  sunday : CountWins
  uniqueDays : List Nat
  totalPlayingTime : Nat
  longestGame : LongestGame
deriving DecidableEq

/-- Bucket update of one game. -/
def bumpCW (c : CountWins) (isWin : Bool) : CountWins :=
  ⟨c.games + 1, if isWin then c.wins + 1 else c.wins⟩

/-- The body of the forEach of generatePlayingPatternStats (lines
854-899): hour bucketing, weekday bucketing, the unique-day set, the
move-count duration estimate and the longest-game record. -/
def ppStep (u : String) (acc : PPAcc) (g : Game) : PPAcc :=
  let h := hourOf g.end_time
  let dIdx := dayIdxOf g.end_time
  let d := dayOf g.end_time
  let res := resultOf u g
  let isWin : Bool := res = "win"
  let dur := countMoves g.pgn * 2
  let slotMorning : Bool := 5 ≤ h ∧ h < 12
  let slotAfternoon : Bool := ¬ (5 ≤ h ∧ h < 12) ∧ 12 ≤ h ∧ h < 17
  let slotEvening : Bool := ¬ (5 ≤ h ∧ h < 12) ∧ ¬ (12 ≤ h ∧ h < 17) ∧ 17 ≤ h ∧ h < 22
  let slotNight : Bool := ¬ (5 ≤ h ∧ h < 12) ∧ ¬ (12 ≤ h ∧ h < 17) ∧ ¬ (17 ≤ h ∧ h < 22)
  { morning := if slotMorning then bumpCW acc.morning isWin else acc.morning
    afternoon := if slotAfternoon then bumpCW acc.afternoon isWin else acc.afternoon
    evening := if slotEvening then bumpCW acc.evening isWin else acc.evening
    night := if slotNight then bumpCW acc.night isWin else acc.night
    monday := if dIdx = 1 then bumpCW acc.monday isWin else acc.monday
    tuesday := if dIdx = 2 then bumpCW acc.tuesday isWin else acc.tuesday
    wednesday := if dIdx = 3 then bumpCW acc.wednesday isWin else acc.wednesday
    thursday := if dIdx = 4 then bumpCW acc.thursday isWin else acc.thursday
    friday := if dIdx = 5 then bumpCW acc.friday isWin else acc.friday
    saturday := if dIdx = 6 then bumpCW acc.saturday isWin else acc.saturday
    sunday := if dIdx = 0 then bumpCW acc.sunday isWin else acc.sunday
    uniqueDays := if d ∈ acc.uniqueDays then acc.uniqueDays else acc.uniqueDays ++ [d]
    totalPlayingTime := acc.totalPlayingTime + dur
    longestGame := if dur > acc.longestGame.duration then
        ⟨opponentOf u g, some d, some g.time_class, res, dur, g.url⟩
      else acc.longestGame }

/-- Rounded win rate of a bucket; stays zero for an empty bucket (the
source mutates winRate only under a games greater than zero guard). -/
def bucketRate (c : CountWins) : Int :=
  if 0 < c.games then jsRound ((c.wins : ℚ) / c.games * 100) else 0

/-- The best-bucket selection loop (lines 905-913 and 919-927): buckets
are visited in object-literal insertion order; a bucket with a strictly
higher win rate and at least five games replaces the running best. -/
def bestBucket (init : String) (l : List (String × CountWins)) : String :=
  (l.foldl (fun (best : String × Int) p =>
    if 0 < p.2.games ∧ bucketRate p.2 > best.2 ∧ 5 ≤ p.2.games
    then (p.1, bucketRate p.2) else best) (init, 0)).1

/-- generatePlayingPatternStats (lines 823-952).  The averageGamesPerDay
and averageGameDuration divisions are unguarded in the source, so they
are modelled with JavaScript division semantics. -/
def generatePlayingPatternStats (games : List Game) (u : String) : PlayingPatterns :=
  let acc := games.foldl (ppStep u)
    ⟨⟨0, 0⟩, ⟨0, 0⟩, ⟨0, 0⟩, ⟨0, 0⟩, ⟨0, 0⟩, ⟨0, 0⟩, ⟨0, 0⟩, ⟨0, 0⟩, ⟨0, 0⟩, ⟨0, 0⟩, ⟨0, 0⟩,
      [], 0, ⟨"", none, none, "", 0, ""⟩⟩
  { timeOfDay :=
      { morning := ⟨acc.morning.games, bucketRate acc.morning⟩
        afternoon := ⟨acc.afternoon.games, bucketRate acc.afternoon⟩
        evening := ⟨acc.evening.games, bucketRate acc.evening⟩
        night := ⟨acc.night.games, bucketRate acc.night⟩
        bestTimeToPlay := bestBucket "morning"
          [("morning", acc.morning), ("afternoon", acc.afternoon),
           ("evening", acc.evening), ("night", acc.night)] }
    dayOfWeek :=
      { monday := ⟨acc.monday.games, bucketRate acc.monday⟩
        tuesday := ⟨acc.tuesday.games, bucketRate acc.tuesday⟩
        wednesday := ⟨acc.wednesday.games, bucketRate acc.wednesday⟩
        thursday := ⟨acc.thursday.games, bucketRate acc.thursday⟩
        friday := ⟨acc.friday.games, bucketRate acc.friday⟩
        saturday := ⟨acc.saturday.games, bucketRate acc.saturday⟩
        sunday := ⟨acc.sunday.games, bucketRate acc.sunday⟩
        bestDayToPlay := bestBucket "monday"
          [("monday", acc.monday), ("tuesday", acc.tuesday), ("wednesday", acc.wednesday),
           ("thursday", acc.thursday), ("friday", acc.friday), ("saturday", acc.saturday),
           ("sunday", acc.sunday)] }
    averageGamesPerDay := jsRoundJS (jsDivN games.length acc.uniqueDays.length)
    totalPlayingTime := acc.totalPlayingTime
    averageGameDuration := jsRoundJS (jsDivN acc.totalPlayingTime games.length)
    longestGame := acc.longestGame }

/-! Opponent analyzer (generateOpponentStats, lines 1051-1221): the
aggregation map over games and the projection that computes the rounded
win and loss rates. -/

/-- The per-opponent aggregate of the opponentStats map.  The format is
fixed when the entry is created (the source only sets it in the default
object). -/
structure OppAgg where
  games : Nat
  wins : Nat
  losses : Nat
  opponentRating : Int
  format : TimeClass
deriving DecidableEq

/-- The body of the forEach of generateOpponentStats (lines 1069-1089):
wins count exactly the subject-side win results, losses count every
result that is neither win nor draw, and the stored rating is the latest
observed. -/
def oppStep (u : String) (m : List (String × OppAgg)) (g : Game) : List (String × OppAgg) :=
  let opp := opponentOf u g
  let oppR := oppRatingOf u g
  let res := resultOf u g
  let s := (lookA opp m).getD ⟨0, 0, 0, oppR, g.time_class⟩
  let s1 : OppAgg :=
    { s with
      games := s.games + 1
      wins := if res = "win" then s.wins + 1 else s.wins
      losses := if res ≠ "win" ∧ res ≠ "draw" then s.losses + 1 else s.losses
      opponentRating := oppR }
  setA opp s1 m

/-- The opponentStats map after the aggregation loop. -/
def opponentAgg (games : List Game) (u : String) : List (String × OppAgg) :=
  games.foldl (oppStep u) []

/-- A processed opponent entry of the overall rankings. -/
structure OppOut where
  username : String
  games : Nat
  winRate : Int
  lossRate : Int
  opponentRating : Int
  percentage : Int
deriving DecidableEq

/-- Being a game against a given opponent. -/
def vsOppP (u opp : String) (g : Game) : Bool := opponentOf u g = opp

/-- Being a subject win against a given opponent. -/
def vsOppWinP (u opp : String) (g : Game) : Bool :=
  opponentOf u g = opp ∧ resultOf u g = "win"

/-- Being a game against a given opponent whose subject result is
neither win nor draw (what the analyzer counts as a loss). -/
def vsOppLossP (u opp : String) (g : Game) : Bool :=
  opponentOf u g = opp ∧ resultOf u g ≠ "win" ∧ resultOf u g ≠ "draw"

/-- processOpponents (lines 1092-1101): rounded win, loss and share
percentages of aggregated opponents. -/
def processOpponents (totalGames : Nat) (l : List (String × OppAgg)) : List OppOut :=
  l.map (fun e =>
    { username := e.1
      games := e.2.games
      winRate := jsRound ((e.2.wins : ℚ) / e.2.games * 100)
      lossRate := jsRound ((e.2.losses : ℚ) / e.2.games * 100)
      opponentRating := e.2.opponentRating
      percentage := jsRound ((e.2.games : ℚ) / totalGames * 100) })

/-! Remaining section types of the report (ChessWrapped of types.ts):
the claims need their shape, not their computation. -/

/-- One entry of the intro activeMonths lists (months are the raw
YYYY-MM strings of the source here). -/
structure MonthCount where
  month : String
  gamesPlayed : Nat
deriving DecidableEq

/-- The favourite-format record of the intro section. -/
structure FavoriteFormat where
  format : TimeClass
  gamesPlayed : Nat
  winRate : Int
deriving DecidableEq

/-- The longest-streak record of the intro section (date strings kept
verbatim). -/
structure StreakRec where
  startDate : String
  endDate : String
  days : Nat
  gamesPlayed : Nat
deriving DecidableEq

/-- The longest-break record of the intro section. -/
structure BreakRec where
  startDate : String
  endDate : String
  days : Nat
deriving DecidableEq

/-- The intro section of the report. -/
structure IntroStats where
  totalGames : Nat
  formatBreakdown : FormatBreakdown
  mostGamesInDayDate : String
  mostGamesInDayCount : Nat
  activeMonthsMost : List MonthCount
  activeMonthsLeast : List MonthCount
  favoriteFormat : FavoriteFormat
  longestStreak : StreakRec
  longestBreak : BreakRec
deriving DecidableEq

/-- One row of the monthly distribution. -/
structure MonthRow where
  month : String
  rapid : Nat
  blitz : Nat
  bullet : Nat
  total : Nat
deriving DecidableEq

/-- The monthlyGames section of the report. -/
structure MonthlyGames where
  mostActiveMonth : String
  mostActiveGames : Nat
  leastActiveMonth : String
  leastActiveGames : Nat
  distribution : List MonthRow
deriving DecidableEq

/-- One ranked opening of the openings section. -/
structure OpeningRankEntry where
  name : String
  count : Nat
  winRate : Int
  percentage : Int
deriving DecidableEq

/-- Top and worst openings of one colour. -/
structure ColorOpenings where
  topOpenings : List OpeningRankEntry
  worstOpenings : List OpeningRankEntry
deriving DecidableEq

/-- The openings section of the report. -/
structure OpeningsStats where
  asWhite : ColorOpenings
  asBlack : ColorOpenings
deriving DecidableEq

/-- A performance-ranking opponent entry. -/
structure PerfEntry where
  username : String
  games : Nat
  winRate : Int
  lossRate : Int
  opponentRating : Int
  minGames : Nat
deriving DecidableEq

/-- The three rankings of one opponent scope. -/
structure OppRankings where
  mostPlayed : List OppOut
  bestPerformance : List PerfEntry
  worstPerformance : List PerfEntry
deriving DecidableEq

/-- The opponents section of the report. -/
structure OpponentsStats where
  overall : OppRankings
  byFormat : PerTC OppRankings
deriving DecidableEq

/-- The performance (accuracy) section of the report. -/
structure PerformanceStats where
  overall : Option ℚ
  rapid : Option ℚ
  blitz : Option ℚ
  bullet : Option ℚ
deriving DecidableEq

/-- The full report (the ChessWrapped interface). -/
structure ChessWrapped where
  intro : IntroStats
  monthlyGames : MonthlyGames
  ratings : RatingsStats
  formatSpecific : PerTC (Option FormatStats)
  playingPatterns : PlayingPatterns
  openings : OpeningsStats
  opponents : OpponentsStats
  performance : PerformanceStats
deriving DecidableEq

/-- A format-specific section with the rating-progression, best-win and
worst-loss detail removed, as exposed by the redacted view. -/
structure CleanFormatStats where
  gamesPlayed : Nat
  winRate : Int
  openingsAsWhite : List OpeningEntry
  openingsAsBlack : List OpeningEntry
  results : ResultsBlock
  averageGameDuration : Int
deriving DecidableEq

/-- The redacted view (the ChessWrappedStats type): no ratings section at
all and cleaned format-specific sections. -/
structure ChessWrappedStats where
  intro : IntroStats
  monthlyGames : MonthlyGames
  formatSpecific : PerTC (Option CleanFormatStats)
  playingPatterns : PlayingPatterns
  openings : OpeningsStats
  opponents : OpponentsStats
  performance : PerformanceStats
deriving DecidableEq

/-- Redaction of one format-specific section (lines 327-334): the
destructuring drops ratingProgress, bestWin and worstLoss, and each
colour opening list is truncated by slice(0, 3). -/
def cleanFormat (s : FormatStats) : CleanFormatStats :=
  { gamesPlayed := s.gamesPlayed
    winRate := s.winRate
    openingsAsWhite := s.openingsAsWhite.take 3
    openingsAsBlack := s.openingsAsBlack.take 3
    results := s.results
    averageGameDuration := s.averageGameDuration }

/-- getChessWrappedStats (lines 314-372), applied to an already computed
report: the ratings section is dropped and every present format-specific
section is cleaned. -/
def getChessWrappedStats (w : ChessWrapped) : ChessWrappedStats :=
  { intro := w.intro
    monthlyGames := w.monthlyGames
    formatSpecific :=
      ⟨w.formatSpecific.rapid.map cleanFormat,
       w.formatSpecific.blitz.map cleanFormat,
       w.formatSpecific.bullet.map cleanFormat⟩
    playingPatterns := w.playingPatterns
    openings := w.openings
    opponents := w.opponents
    performance := w.performance }

/-- Replacement of exactly the rating detail of a format-specific
section, used to state that the redacted view does not depend on it. -/
def overwriteRatingDetail (s : FormatStats) (rp : List DatedRating)
    (bw wl : Option BWDetail) : FormatStats :=
  { s with ratingProgress := rp, bestWin := bw, worstLoss := wl }

/-- Replacement of the rating detail of every present format-specific
section of a report, together with an arbitrary replacement of its whole
ratings section. -/
def scrubRatingData (w : ChessWrapped) (r : RatingsStats) (rp : List DatedRating)
    (bw wl : Option BWDetail) : ChessWrapped :=
  { w with
    ratings := r
    formatSpecific :=
      ⟨w.formatSpecific.rapid.map (fun s => overwriteRatingDetail s rp bw wl),
       w.formatSpecific.blitz.map (fun s => overwriteRatingDetail s rp bw wl),
       w.formatSpecific.bullet.map (fun s => overwriteRatingDetail s rp bw wl)⟩ }

/-- Length bound of the opening lists of a redacted format-specific
section. -/
def openLenOk : Option CleanFormatStats → Prop
  | none => True
  | some s => s.openingsAsWhite.length ≤ 3 ∧ s.openingsAsBlack.length ≤ 3

/-! Game Log Cache (lines 29-68). -/

/-- One cache entry (the CachedData interface); timestamps are
Date.now() milliseconds. -/
structure CachedData where
  timestamp : Int
  games : List Game
  wrappedData : Option ChessWrapped
deriving DecidableEq

/-- The five-minute TTL in milliseconds (line 38). -/
def CACHE_DURATION : Int := 5 * 60 * 1000

/-- The cache map, modelled extensionally: JS Map get is application,
delete is a pointwise update to none. -/
def CacheMap : Type := String → Option CachedData

/-- Map.delete. -/
def mapDelete (m : CacheMap) (k : String) : CacheMap :=
  fun x => if x = k then none else m x

/-- getCachedData (lines 53-64): a lower-cased key lookup; an entry older
than the TTL is deleted and treated as absent.  The returned pair is the
cache after the call and the returned value. -/
def getCachedData (cache : CacheMap) (now : Int) (username : String) :
    CacheMap × Option CachedData :=
  match cache (lowerStr username) with
  | none => (cache, none)
  | some cached =>
    if now - cached.timestamp > CACHE_DURATION then
      (mapDelete cache (lowerStr username), none)
    else (cache, some cached)

/-- setCachedData (lines 66-68). -/
def setCachedData (cache : CacheMap) (username : String) (data : CachedData) : CacheMap :=
  fun x => if x = lowerStr username then some data else cache x

/-! Concrete inputs used by witnesses and the counterexample. -/

/-- A concrete game with the given time control, end time, usernames,
ratings and result codes. -/
def mkGame (tc : TimeClass) (t : Nat) (wu : String) (wr : Int) (wres : String)
    (bu : String) (br : Int) (bres : String) : Game :=
  { time_class := tc
    white := ⟨wu, wr, wres⟩
    black := ⟨bu, br, bres⟩
    accuracies := none
    eco := "Unknown"
    opening := "Unknown Opening"
    url := ""
    end_time := t
    rules := "chess"
    pgn := "" }

/-- Four rapid games of one subject: day zero moves the rating 1500,
1510, 1480 (running day change 0, +10, then -20) and day one moves it to
1485 (day change +5). -/
def cexGames : List Game :=
  [mkGame TimeClass.rapid 0 "me" 1500 "win" "x" 1490 "checkmated",
   mkGame TimeClass.rapid 3600 "me" 1510 "win" "x" 1480 "checkmated",
   mkGame TimeClass.rapid 7200 "me" 1480 "checkmated" "x" 1520 "win",
   mkGame TimeClass.rapid 86500 "me" 1485 "win" "x" 1470 "checkmated"]

/-- One rapid win, enough for a format to be eligible (share 100%). -/
def oneWinGame : List Game :=
  [mkGame TimeClass.rapid 0 "me" 1500 "win" "opp" 1400 "resigned"]

/-- A rapid win followed by a rapid loss on the same day. -/
def winLossGames : List Game :=
  [mkGame TimeClass.rapid 0 "me" 1500 "win" "a" 1400 "resigned",
   mkGame TimeClass.rapid 3600 "me" 1490 "checkmated" "a" 1410 "win"]

/-- Ten rapid games among two hundred in total: the spec scenario of an
ineligible category. -/
def scenario200 : List Game :=
  List.replicate 10 (mkGame TimeClass.rapid 0 "me" 1500 "win" "x" 1500 "checkmated")
  ++ List.replicate 190 (mkGame TimeClass.blitz 0 "me" 1500 "win" "x" 1500 "checkmated")

/-- Three games against bob: two subject wins and one loss. -/
def bobGames : List Game :=
  [mkGame TimeClass.rapid 0 "me" 1500 "win" "bob" 1400 "checkmated",
   mkGame TimeClass.rapid 3600 "me" 1510 "win" "bob" 1395 "resigned",
   mkGame TimeClass.rapid 7200 "me" 1490 "checkmated" "bob" 1405 "win"]

/-- The aggregate the opponent map holds for bob after bobGames. -/
def bobAgg : OppAgg := ⟨3, 2, 1, 1405, TimeClass.rapid⟩

/-- A cache holding one entry for bob, captured at time zero. -/
def exCache : CacheMap :=
  fun k => if k = "bob" then some ⟨0, [], none⟩ else none

/-! Theorems.  Everything above this marker is a definition; everything
below is a theorem. -/

theorem lookA_setA [DecidableEq κ] (k k' : κ) (v : α) (m : List (κ × α)) :
    lookA k' (setA k v m) = if k = k' then some v else lookA k' m := by
  induction m with
  | nil =>
    by_cases h : k = k' <;> simp [setA, lookA, h]
  | cons p t ih =>
    obtain ⟨k2, v2⟩ := p
    by_cases h2 : k2 = k
    · by_cases h : k = k' <;> simp [setA, lookA, h2, h]
    · by_cases h : k2 = k'
      · subst h
        by_cases hk : k = k2
        · exact absurd hk.symm h2
        · simp [setA, lookA, h2, hk, ih]
      · simp [setA, lookA, h2, h, ih]

theorem daySum_append (d : Nat) (xs ys : List (Nat × Int)) :
    daySum d (xs ++ ys) = daySum d xs + daySum d ys := by
  simp [daySum, List.filter_append]

theorem daySum_single (d d' : Nat) (c : Int) :
    daySum d [(d', c)] = if d' = d then c else 0 := by
  simp only [daySum, List.filter_cons, List.filter_nil]
  split <;> simp_all

theorem dailyGet_setA (d d' : Nat) (v : Int) (m : List (Nat × Int)) :
    dailyGet (setA d v m) d' = if d = d' then v else dailyGet m d' := by
  simp only [dailyGet, lookA_setA]
  split <;> rfl

/-- Invariant induction for the per-time-control loop: provided the
dailyRatingChanges map agrees with the day totals of the changes seen so
far, the running (maxGainInDay, bestGainDate) and (maxLossInDay,
worstLossDate) pairs evolve exactly as the strict max and min trackers
over the running within-day net-change values of the remaining games. -/
theorem rsFold_gain_loss (u : String) (tc : TimeClass) :
    ∀ (rest : List Game) (seen : List (Nat × Int)) (s : RSState),
    (∀ d, dailyGet s.daily d = daySum d seen) →
    (((rest.foldl (rsStep u tc) s).maxGain, (rest.foldl (rsStep u tc) s).bestGainDate)
        = (runVals seen (dayChanges u s.prev rest)).foldl maxStep (s.maxGain, s.bestGainDate))
    ∧ (((rest.foldl (rsStep u tc) s).maxLoss, (rest.foldl (rsStep u tc) s).worstLossDate)
        = (runVals seen (dayChanges u s.prev rest)).foldl minStep (s.maxLoss, s.worstLossDate)) := by
  intro rest
  induction rest with
  | nil =>
    intro seen s _
    simp [dayChanges, runVals]
  | cons g t ih =>
    intro seen s hinv
    have hv : dailyGet s.daily (dayOf g.end_time) + (rateOf u g - s.prev)
        = daySum (dayOf g.end_time) (seen ++ [(dayOf g.end_time, rateOf u g - s.prev)]) := by
      rw [hinv, daySum_append, daySum_single]
      simp
    have hinv1 : ∀ d, dailyGet (rsStep u tc s g).daily d
        = daySum d (seen ++ [(dayOf g.end_time, rateOf u g - s.prev)]) := by
      intro d
      show dailyGet (setA (dayOf g.end_time)
        (dailyGet s.daily (dayOf g.end_time) + (rateOf u g - s.prev)) s.daily) d = _
      rw [dailyGet_setA]
      by_cases hd : dayOf g.end_time = d
      · rw [if_pos hd, hv, hd]
      · rw [if_neg hd, hinv, daySum_append, daySum_single, if_neg hd, add_zero]
    have hprev : (rsStep u tc s g).prev = rateOf u g := rfl
    have hmain := ih (seen ++ [(dayOf g.end_time, rateOf u g - s.prev)]) (rsStep u tc s g) hinv1
    rw [hprev] at hmain
    have hmg : ((rsStep u tc s g).maxGain, (rsStep u tc s g).bestGainDate)
        = maxStep (s.maxGain, s.bestGainDate)
            (dayOf g.end_time, daySum (dayOf g.end_time)
              (seen ++ [(dayOf g.end_time, rateOf u g - s.prev)])) := by
      rw [← hv]
      show (_, _) = maxStep _ _
      simp only [rsStep, maxStep]
      split <;> rfl
    have hml : ((rsStep u tc s g).maxLoss, (rsStep u tc s g).worstLossDate)
        = minStep (s.maxLoss, s.worstLossDate)
            (dayOf g.end_time, daySum (dayOf g.end_time)
              (seen ++ [(dayOf g.end_time, rateOf u g - s.prev)])) := by
      rw [← hv]
      simp only [rsStep, minStep]
      split <;> rfl
    constructor
    · rw [List.foldl_cons, hmain.1, dayChanges, runVals, List.foldl_cons, ← hmg]
    · rw [List.foldl_cons, hmain.2, dayChanges, runVals, List.foldl_cons, ← hml]

/-- The bestRatingGains output of one time control equals its declarative
description. -/
theorem processTC_gain (u : String) (tc : TimeClass) (gs : List Game) (best0 : BestDay) :
    (processTC u tc gs best0).gain = specBestGain u gs := by
  cases gs with
  | nil => rfl
  | cons g t =>
    have h := (rsFold_gain_loss u tc (g :: t) []
      ⟨0, 0, none, none, [], rateOf u g, none, none, [], best0⟩ (fun _ => rfl)).1
    have h1 := congrArg Prod.fst h
    have h2 := congrArg Prod.snd h
    simp only at h1 h2
    simp only [processTC, specBestGain, h1, h2]

/-- The worstRatingLosses output of one time control equals its
declarative description. -/
theorem processTC_loss (u : String) (tc : TimeClass) (gs : List Game) (best0 : BestDay) :
    (processTC u tc gs best0).loss = specWorstLoss u gs := by
  cases gs with
  | nil => rfl
  | cons g t =>
    have h := (rsFold_gain_loss u tc (g :: t) []
      ⟨0, 0, none, none, [], rateOf u g, none, none, [], best0⟩ (fun _ => rfl)).2
    have h1 := congrArg Prod.fst h
    have h2 := congrArg Prod.snd h
    simp only at h1 h2
    simp only [processTC, specWorstLoss, h1, h2]

/-- After a nonempty run of the loop body, currentRatings holds the
subject-side rating of the last processed game. -/
theorem foldl_rsStep_current (u : String) (tc : TimeClass) (gs : List Game) (s : RSState)
    (h : gs ≠ []) :
    (gs.foldl (rsStep u tc) s).current = gs.getLast?.map (rateOf u) := by
  induction gs using List.reverseRecOn with
  | nil => exact absurd rfl h
  | append_singleton xs x _ =>
    rw [List.foldl_append]
    simp [rsStep]

/-- The currentRatings output of one time control is the subject-side
rating of the last game of the filtered list (none when there is none). -/
theorem processTC_current (u : String) (tc : TimeClass) (gs : List Game) (best0 : BestDay) :
    (processTC u tc gs best0).current = gs.getLast?.map (rateOf u) := by
  cases gs with
  | nil => rfl
  | cons g t =>
    simp only [processTC]
    exact foldl_rsStep_current u tc (g :: t) _ (by simp)

/-- C1: for each category, currentRatings is the subject-side rating of
the chronologically last game of that category in the log (the log being
chronologically sorted), and null when the category has no game. -/
theorem c1_current_rating (games : List Game) (u : String)
    (_hchrono : games.Pairwise (fun a b => a.end_time ≤ b.end_time)) (tc : TimeClass) :
    (generateRatingStats games u).currentRatings.get tc
      = ((games.filter (fun g => g.time_class = tc)).getLast?).map (rateOf u) := by
  cases tc <;> exact processTC_current _ _ _ _

/-- Witness of C1 at the concrete sorted log cexGames. -/
theorem c1_current_rating_witness :
    (generateRatingStats cexGames "me").currentRatings.get TimeClass.rapid
      = ((cexGames.filter (fun g => g.time_class = TimeClass.rapid)).getLast?).map (rateOf "me") :=
  c1_current_rating cexGames "me" (by decide) TimeClass.rapid

/-- C2 (amended): for each category, bestRatingGains holds the largest
value reached by the running within-day net rating change over the
chronological walk (the first game of the category contributing zero) and
the day it is first reached, or null when that running value never
becomes positive; worstRatingLosses holds the most negative such running
value as an absolute value, or null when it never becomes negative. -/
theorem c2_running_day_change (games : List Game) (u : String) (tc : TimeClass) :
    (generateRatingStats games u).bestRatingGains.get tc
      = specBestGain u (games.filter (fun g => g.time_class = tc))
    ∧ (generateRatingStats games u).worstRatingLosses.get tc
      = specWorstLoss u (games.filter (fun g => g.time_class = tc)) := by
  cases tc <;> exact ⟨processTC_gain _ _ _ _, processTC_loss _ _ _ _⟩

/-- Counterexample to C2 as stated: in cexGames day 0 has total net
change -20 and day 1 has total net change 5, so the day with the largest
positive total net change is day 1 with gain 5; the code instead reports
day 0 with gain 10 (the running within-day maximum). -/
theorem c2_counterexample :
    (generateRatingStats cexGames "me").bestRatingGains.get TimeClass.rapid
      = some ⟨0, 10⟩
    ∧ daySum 0 (dayChanges "me" 1500 cexGames) = -20
    ∧ daySum 1 (dayChanges "me" 1500 cexGames) = 5
    ∧ (generateRatingStats cexGames "me").bestRatingGains.get TimeClass.rapid
      ≠ some ⟨1, 5⟩ := by
  decide

/-- C3: divergence of the code from the claim: on an empty log the source
computes Math.round of zero divided by zero, which is NaN, not the zero
value the specification requires. -/
theorem c3_empty_log_is_nan (u : String) :
    (generatePlayingPatternStats [] u).averageGamesPerDay = JSNum.nan
    ∧ (generatePlayingPatternStats [] u).averageGamesPerDay ≠ JSNum.num 0 := by
  refine ⟨rfl, ?_⟩
  intro h
  exact JSNum.noConfusion h

set_option maxRecDepth 20000 in
/-- C4: a category has a key in the format-specific output exactly when
its game count is at least 15 or its share of all games exceeds one
tenth; in particular a category with 10 games out of 200 is absent. -/
theorem c4_format_eligibility :
    (∀ (games : List Game) (u : String) (tc : TimeClass),
      ((generateFormatSpecificStats games u).get tc).isSome
        ↔ (15 ≤ (games.filter (fun g => g.time_class = tc)).length
            ∨ (((games.filter (fun g => g.time_class = tc)).length : ℚ) / games.length > 1 / 10)))
    ∧ (generateFormatSpecificStats scenario200 "me").get TimeClass.rapid = none := by
  have hmain : ∀ (games : List Game) (u : String) (tc : TimeClass),
      ((generateFormatSpecificStats games u).get tc).isSome
        ↔ (15 ≤ (games.filter (fun g => g.time_class = tc)).length
            ∨ (((games.filter (fun g => g.time_class = tc)).length : ℚ) / games.length > 1 / 10)) := by
    intro games u tc
    have h : ((generateFormatSpecificStats games u).get tc).isSome
        ↔ isFormatEligible games tc = true := by
      cases tc <;> simp only [generateFormatSpecificStats, PerTC.get] <;> split <;> simp_all
    rw [h, isFormatEligible]
    simp only [decide_eq_true_eq]
  refine ⟨hmain, ?_⟩
  have h10 : (scenario200.filter (fun g => g.time_class = TimeClass.rapid)).length = 10 := by
    decide
  have h200 : scenario200.length = 200 := by decide
  have h1 := hmain scenario200 "me" TimeClass.rapid
  rw [h10, h200] at h1
  have h2 : ¬ ((generateFormatSpecificStats scenario200 "me").get TimeClass.rapid).isSome := by
    rw [h1]
    push_cast
    norm_num
  exact Option.not_isSome_iff_eq_none.mp h2

/-- C5: every format-specific section has empty opening lists for both
colours, because the per-colour opening aggregation maps are never
written before being read. -/
theorem c5_openings_empty (games : List Game) (u : String) (tc : TimeClass)
    (fs : FormatStats) (h : (generateFormatSpecificStats games u).get tc = some fs) :
    fs.openingsAsWhite = [] ∧ fs.openingsAsBlack = [] := by
  cases tc <;> simp only [generateFormatSpecificStats, PerTC.get] at h <;> split at h <;>
    first
      | (obtain rfl := Option.some.inj h; exact ⟨rfl, rfl⟩)
      | exact Option.noConfusion h

/-- Witness of C5 on a log whose rapid section is eligible. -/
theorem c5_openings_empty_witness :
    ((generateFormatSpecificStats oneWinGame "me").get TimeClass.rapid).elim False
      (fun fs => fs.openingsAsWhite = [] ∧ fs.openingsAsBlack = []) := by
  have helig : isFormatEligible oneWinGame TimeClass.rapid = true := by
    rw [isFormatEligible]
    simp only [decide_eq_true_eq]
    right
    norm_num [oneWinGame, mkGame]
  have h : (generateFormatSpecificStats oneWinGame "me").get TimeClass.rapid
      = some (processFormat "me"
          (oneWinGame.filter (fun g => g.time_class = TimeClass.rapid))) := by
    show (if isFormatEligible oneWinGame TimeClass.rapid then
        some (processFormat "me"
          (oneWinGame.filter (fun g => g.time_class = TimeClass.rapid)))
      else none) = _
    rw [helig]
    rfl
  rw [h]
  exact c5_openings_empty oneWinGame "me" TimeClass.rapid _ h

theorem updWin_total (w : WinLossDetail) (rc : String) : (updWin w rc).total = w.total + 1 := by
  simp only [updWin]
  split_ifs <;> rfl

theorem updDraw_total (w : DrawDetail) (rc : String) : (updDraw w rc).total = w.total + 1 := by
  simp only [updDraw]
  split_ifs <;> rfl

theorem updLoss_total (w : WinLossDetail) (rc : String) : (updLoss w rc).total = w.total + 1 := by
  simp only [updLoss]
  split_ifs <;> rfl

/-- Exactly one outcome total grows by one per classified game. -/
theorem classifyUpd_sum (res rc : String) (r : ResultsBlock) :
    (classifyUpd res rc r).wins.total + (classifyUpd res rc r).draws.total
      + (classifyUpd res rc r).losses.total
    = r.wins.total + r.draws.total + r.losses.total + 1 := by
  simp only [classifyUpd]
  split_ifs <;> simp [updWin_total, updDraw_total, updLoss_total] <;> omega

/-- Outcome totals grow by exactly the number of games folded. -/
theorem fsFold_sum (u : String) (gs : List Game) :
    ∀ acc : FSAcc,
    (gs.foldl (fsStep u) acc).results.wins.total
      + (gs.foldl (fsStep u) acc).results.draws.total
      + (gs.foldl (fsStep u) acc).results.losses.total
    = acc.results.wins.total + acc.results.draws.total + acc.results.losses.total
      + gs.length := by
  induction gs with
  | nil => intro acc; simp
  | cons g t ih =>
    intro acc
    rw [List.foldl_cons, ih (fsStep u acc g)]
    have hres : (fsStep u acc g).results = classifyUpd (resultOf u g) g.rules acc.results := rfl
    rw [hres, List.length_cons]
    have h := classifyUpd_sum (resultOf u g) g.rules acc.results
    omega

/-- The outcome totals of one processed format partition its games. -/
theorem processFormat_partition (u : String) (fg : List Game) :
    (processFormat u fg).results.wins.total + (processFormat u fg).results.draws.total
      + (processFormat u fg).results.losses.total = (processFormat u fg).gamesPlayed := by
  have h := fsFold_sum u fg ⟨0, 0, [], none, none, zeroResults⟩
  simpa [processFormat, zeroResults] using h

/-- C10: in every present format-specific section the win, draw and loss
totals sum to gamesPlayed, because every game enters exactly one of the
three outcome branches. -/
theorem c10_outcome_partition (games : List Game) (u : String) (tc : TimeClass)
    (fs : FormatStats) (h : (generateFormatSpecificStats games u).get tc = some fs) :
    fs.results.wins.total + fs.results.draws.total + fs.results.losses.total
      = fs.gamesPlayed := by
  cases tc <;> simp only [generateFormatSpecificStats, PerTC.get] at h <;> split at h <;>
    first
      | (obtain rfl := Option.some.inj h
         exact processFormat_partition _ _)
      | exact Option.noConfusion h

/-- Witness of C10 on a two-game log (a win and a loss). -/
theorem c10_outcome_partition_witness :
    ((generateFormatSpecificStats winLossGames "me").get TimeClass.rapid).elim False
      (fun fs => fs.results.wins.total + fs.results.draws.total + fs.results.losses.total
        = fs.gamesPlayed) := by
  have helig : isFormatEligible winLossGames TimeClass.rapid = true := by
    rw [isFormatEligible]
    simp only [decide_eq_true_eq]
    right
    norm_num [winLossGames, mkGame]
  have h : (generateFormatSpecificStats winLossGames "me").get TimeClass.rapid
      = some (processFormat "me"
          (winLossGames.filter (fun g => g.time_class = TimeClass.rapid))) := by
    show (if isFormatEligible winLossGames TimeClass.rapid then
        some (processFormat "me"
          (winLossGames.filter (fun g => g.time_class = TimeClass.rapid)))
      else none) = _
    rw [helig]
    rfl
  rw [h]
  exact c10_outcome_partition winLossGames "me" TimeClass.rapid _ h

/-- C6: the redacted view does not depend on any rating-progression data
of the report (overwriting the ratings section and the rating detail of
every format-specific section leaves the view unchanged), and every
format-specific openings list of the view has at most three entries per
colour. -/
theorem c6_view_redaction (w : ChessWrapped) (r : RatingsStats) (rp : List DatedRating)
    (bw wl : Option BWDetail) :
    getChessWrappedStats (scrubRatingData w r rp bw wl) = getChessWrappedStats w
    ∧ ∀ tc, openLenOk ((getChessWrappedStats w).formatSpecific.get tc) := by
  obtain ⟨i, mg, rt, ⟨fr, fb, fu⟩, pp, op, os, pf⟩ := w
  constructor
  · cases fr <;> cases fb <;> cases fu <;> rfl
  · intro tc
    cases tc
    · show openLenOk (fr.map cleanFormat)
      cases fr with
      | none => trivial
      | some s => exact ⟨List.length_take_le _ _, List.length_take_le _ _⟩
    · show openLenOk (fb.map cleanFormat)
      cases fb with
      | none => trivial
      | some s => exact ⟨List.length_take_le _ _, List.length_take_le _ _⟩
    · show openLenOk (fu.map cleanFormat)
      cases fu with
      | none => trivial
      | some s => exact ⟨List.length_take_le _ _, List.length_take_le _ _⟩

/-- C8: a cache entry whose age exceeds the five-minute TTL is never
returned: the read yields none and the entry is deleted from the map. -/
theorem c8_ttl_expiry (cache : CacheMap) (now : Int) (username : String)
    (cached : CachedData) (hhit : cache (lowerStr username) = some cached)
    (hold : now - cached.timestamp > CACHE_DURATION) :
    (getCachedData cache now username).2 = none
    ∧ (getCachedData cache now username).1 (lowerStr username) = none := by
  simp only [getCachedData, hhit]
  rw [if_pos hold]
  exact ⟨rfl, by simp [mapDelete]⟩

/-- Witness of C8: an entry captured at time 0 read at time 300001 ms. -/
theorem c8_ttl_expiry_witness :
    (getCachedData exCache 300001 "Bob").2 = none
    ∧ (getCachedData exCache 300001 "Bob").1 (lowerStr "Bob") = none :=
  c8_ttl_expiry exCache 300001 "Bob" ⟨0, [], none⟩ (by decide) (by decide)

/-- Every game has exactly one time control. -/
theorem countP_timeClass_sum (games : List Game) :
    games.countP (fun g => g.time_class = TimeClass.rapid)
      + games.countP (fun g => g.time_class = TimeClass.blitz)
      + games.countP (fun g => g.time_class = TimeClass.bullet) = games.length := by
  induction games with
  | nil => rfl
  | cons g t ih =>
    simp only [List.countP_cons, List.length_cons]
    cases h : g.time_class <;> simp [h] <;> omega

/-- A rounded percentage of a count within a nonzero total lies in the
interval from 0 to 100. -/
theorem jsRound_pct_bounds (a n : ℕ) (hn : n ≠ 0) (han : a ≤ n) :
    0 ≤ jsRound ((a : ℚ) / n * 100) ∧ jsRound ((a : ℚ) / n * 100) ≤ 100 := by
  have hn0 : (0 : ℚ) < n := by exact_mod_cast Nat.pos_of_ne_zero hn
  have hq0 : (0 : ℚ) ≤ (a : ℚ) / n * 100 := by positivity
  have hle1 : (a : ℚ) / n ≤ 1 := (div_le_one hn0).mpr (by exact_mod_cast han)
  have hq100 : (a : ℚ) / n * 100 ≤ 100 := by nlinarith
  constructor
  · simp only [jsRound]
    exact Int.le_floor.mpr (by push_cast; linarith)
  · have h1 : jsRound ((a : ℚ) / n * 100) < 101 := by
      simp only [jsRound]
      exact Int.floor_lt.mpr (by push_cast; linarith)
    omega

/-- The three rounded percentages of a partition of a nonzero total sum
to 100 within a tolerance of 1. -/
theorem jsRound_pct_sum (a b c n : ℕ) (hn : n ≠ 0) (habc : a + b + c = n) :
    |jsRound ((a : ℚ) / n * 100) + jsRound ((b : ℚ) / n * 100)
      + jsRound ((c : ℚ) / n * 100) - 100| ≤ 1 := by
  have hn0 : (0 : ℚ) < n := by exact_mod_cast Nat.pos_of_ne_zero hn
  have hne : (n : ℚ) ≠ 0 := ne_of_gt hn0
  have hcast : (a : ℚ) + b + c = n := by exact_mod_cast habc
  have hsum : (a : ℚ) / n * 100 + (b : ℚ) / n * 100 + (c : ℚ) / n * 100 = 100 := by
    field_simp
    linarith
  simp only [jsRound]
  set pa := ⌊(a : ℚ) / n * 100 + 1 / 2⌋ with hpa
  set pb := ⌊(b : ℚ) / n * 100 + 1 / 2⌋ with hpb
  set pc := ⌊(c : ℚ) / n * 100 + 1 / 2⌋ with hpc
  have la : (pa : ℚ) ≤ (a : ℚ) / n * 100 + 1 / 2 := Int.floor_le _
  have lb : (pb : ℚ) ≤ (b : ℚ) / n * 100 + 1 / 2 := Int.floor_le _
  have lc : (pc : ℚ) ≤ (c : ℚ) / n * 100 + 1 / 2 := Int.floor_le _
  have ga : (a : ℚ) / n * 100 - 1 / 2 < (pa : ℚ) := by
    have h := Int.lt_floor_add_one ((a : ℚ) / n * 100 + 1 / 2)
    rw [← hpa] at h
    linarith
  have gb : (b : ℚ) / n * 100 - 1 / 2 < (pb : ℚ) := by
    have h := Int.lt_floor_add_one ((b : ℚ) / n * 100 + 1 / 2)
    rw [← hpb] at h
    linarith
  have gc : (c : ℚ) / n * 100 - 1 / 2 < (pc : ℚ) := by
    have h := Int.lt_floor_add_one ((c : ℚ) / n * 100 + 1 / 2)
    rw [← hpc] at h
    linarith
  have h1 : pa + pb + pc < 102 := by
    have h : ((pa + pb + pc : ℤ) : ℚ) < 102 := by push_cast; linarith
    exact_mod_cast h
  have h2 : (98 : ℤ) < pa + pb + pc := by
    have h : (98 : ℚ) < ((pa + pb + pc : ℤ) : ℚ) := by push_cast; linarith
    exact_mod_cast h
  rw [abs_le]
  omega

/-- C7: in the intro format breakdown of a non-empty log every percentage
lies in [0, 100] and the three rounded percentages sum to 100 within 1. -/
theorem c7_format_percentages (games : List Game) (h : games ≠ []) :
    (0 ≤ (introFormatBreakdown games).rapid.percentage
        ∧ (introFormatBreakdown games).rapid.percentage ≤ 100)
    ∧ (0 ≤ (introFormatBreakdown games).blitz.percentage
        ∧ (introFormatBreakdown games).blitz.percentage ≤ 100)
    ∧ (0 ≤ (introFormatBreakdown games).bullet.percentage
        ∧ (introFormatBreakdown games).bullet.percentage ≤ 100)
    ∧ |(introFormatBreakdown games).rapid.percentage
        + (introFormatBreakdown games).blitz.percentage
        + (introFormatBreakdown games).bullet.percentage - 100| ≤ 1 := by
  have hlen : games.length ≠ 0 := fun hh => h (List.length_eq_zero.mp hh)
  simp only [introFormatBreakdown]
  rw [if_neg hlen]
  exact ⟨jsRound_pct_bounds _ _ hlen (List.countP_le_length _),
         jsRound_pct_bounds _ _ hlen (List.countP_le_length _),
         jsRound_pct_bounds _ _ hlen (List.countP_le_length _),
         jsRound_pct_sum _ _ _ _ hlen (countP_timeClass_sum games)⟩

/-- Witness of C7 on a one-game log. -/
theorem c7_format_percentages_witness :
    (0 ≤ (introFormatBreakdown oneWinGame).rapid.percentage
        ∧ (introFormatBreakdown oneWinGame).rapid.percentage ≤ 100)
    ∧ (0 ≤ (introFormatBreakdown oneWinGame).blitz.percentage
        ∧ (introFormatBreakdown oneWinGame).blitz.percentage ≤ 100)
    ∧ (0 ≤ (introFormatBreakdown oneWinGame).bullet.percentage
        ∧ (introFormatBreakdown oneWinGame).bullet.percentage ≤ 100)
    ∧ |(introFormatBreakdown oneWinGame).rapid.percentage
        + (introFormatBreakdown oneWinGame).blitz.percentage
        + (introFormatBreakdown oneWinGame).bullet.percentage - 100| ≤ 1 :=
  c7_format_percentages oneWinGame (by simp [oneWinGame])

/-- Characterisation of the opponent aggregation map: an absent key means
no game against that opponent, and a present entry counts the games, the
subject wins, and the results that are neither win nor draw. -/
theorem opponentAgg_spec (u opp : String) (games : List Game) :
    (match lookA opp (opponentAgg games u) with
     | none => games.countP (vsOppP u opp) = 0
     | some s =>
         s.games = games.countP (vsOppP u opp)
         ∧ s.wins = games.countP (vsOppWinP u opp)
         ∧ s.losses = games.countP (vsOppLossP u opp) : Prop) := by
  induction games using List.reverseRecOn with
  | nil => simp [opponentAgg, lookA]
  | append_singleton gs g ih =>
    have hfold : opponentAgg (gs ++ [g]) u = oppStep u (opponentAgg gs u) g := by
      simp [opponentAgg, List.foldl_append]
    rw [hfold]
    simp only [oppStep, List.countP_append, List.countP_cons, List.countP_nil]
    rw [lookA_setA]
    by_cases hopp : opponentOf u g = opp
    · have hgvs : vsOppP u opp g = true := by simp [vsOppP, hopp]
      rw [if_pos hopp, hopp]
      cases hl : lookA opp (opponentAgg gs u) with
      | none =>
        rw [hl] at ih
        have hvs : gs.countP (vsOppP u opp) = 0 := ih
        have hw0 : gs.countP (vsOppWinP u opp) = 0 :=
          Nat.le_zero.mp (hvs ▸ List.countP_mono_left (fun a _ ha => by
            simp only [vsOppWinP, decide_eq_true_eq] at ha
            simp only [vsOppP, decide_eq_true_eq]
            exact ha.1))
        have hl0 : gs.countP (vsOppLossP u opp) = 0 :=
          Nat.le_zero.mp (hvs ▸ List.countP_mono_left (fun a _ ha => by
            simp only [vsOppLossP, decide_eq_true_eq] at ha
            simp only [vsOppP, decide_eq_true_eq]
            exact ha.1))
        refine ⟨?_, ?_, ?_⟩
        · simp [Option.getD, hvs, hgvs]
        · by_cases hw : resultOf u g = "win"
          · have hg : vsOppWinP u opp g = true := by simp [vsOppWinP, hopp, hw]
            simp [Option.getD, hw0, hg, hw]
          · have hg : vsOppWinP u opp g = false := by simp [vsOppWinP, hw]
            simp [Option.getD, hw0, hg, hw]
        · by_cases hw : resultOf u g = "win"
          · have hg : vsOppLossP u opp g = false := by simp [vsOppLossP, hw]
            simp [Option.getD, hl0, hg, hw]
          · by_cases hd : resultOf u g = "draw"
            · have hg : vsOppLossP u opp g = false := by simp [vsOppLossP, hd]
              simp [Option.getD, hl0, hg, hw, hd]
            · have hg : vsOppLossP u opp g = true := by simp [vsOppLossP, hopp, hw, hd]
              simp [Option.getD, hl0, hg, hw, hd]
      | some s =>
        rw [hl] at ih
        obtain ⟨ihg, ihw, ihl⟩ := ih
        refine ⟨?_, ?_, ?_⟩
        · simp [Option.getD, ihg, hgvs]
        · by_cases hw : resultOf u g = "win"
          · have hg : vsOppWinP u opp g = true := by simp [vsOppWinP, hopp, hw]
            simp [Option.getD, ihw, hg, hw]
          · have hg : vsOppWinP u opp g = false := by simp [vsOppWinP, hw]
            simp [Option.getD, ihw, hg, hw]
        · by_cases hw : resultOf u g = "win"
          · have hg : vsOppLossP u opp g = false := by simp [vsOppLossP, hw]
            simp [Option.getD, ihl, hg, hw]
          · by_cases hd : resultOf u g = "draw"
            · have hg : vsOppLossP u opp g = false := by simp [vsOppLossP, hd]
              simp [Option.getD, ihl, hg, hw, hd]
            · have hg : vsOppLossP u opp g = true := by simp [vsOppLossP, hopp, hw, hd]
              simp [Option.getD, ihl, hg, hw, hd]
    · have hgvs : vsOppP u opp g = false := by simp [vsOppP, hopp]
      have hgw : vsOppWinP u opp g = false := by simp [vsOppWinP, hopp]
      have hgl : vsOppLossP u opp g = false := by simp [vsOppLossP, hopp]
      rw [if_neg hopp]
      cases hl : lookA opp (opponentAgg gs u) with
      | none =>
        rw [hl] at ih
        simpa [hgvs] using ih
      | some s =>
        rw [hl] at ih
        obtain ⟨ihg, ihw, ihl⟩ := ih
        exact ⟨by simp [ihg, hgvs], by simp [ihw, hgw], by simp [ihl, hgl]⟩

/-- C9: the opponent map counts, per distinct opponent username, the
games against that opponent, a win exactly when the subject result code
is win, and a loss exactly when the result is neither win nor draw. -/
theorem c9_opponent_counts (games : List Game) (u opp : String) (s : OppAgg)
    (h : lookA opp (opponentAgg games u) = some s) :
    s.games = games.countP (vsOppP u opp)
    ∧ s.wins = games.countP (vsOppWinP u opp)
    ∧ s.losses = games.countP (vsOppLossP u opp) := by
  have hs := opponentAgg_spec u opp games
  rw [h] at hs
  exact hs

/-- Witness of C9: bob is played three times with two subject wins and
one loss, and the processed entry reports winRate 67 and lossRate 33. -/
theorem c9_opponent_counts_witness :
    lookA "bob" (opponentAgg bobGames "me") = some bobAgg
    ∧ (bobAgg.games = bobGames.countP (vsOppP "me" "bob")
      ∧ bobAgg.wins = bobGames.countP (vsOppWinP "me" "bob")
      ∧ bobAgg.losses = bobGames.countP (vsOppLossP "me" "bob"))
    ∧ processOpponents bobGames.length [("bob", bobAgg)]
      = [⟨"bob", 3, 67, 33, 1405, 100⟩] := by
  refine ⟨by decide, c9_opponent_counts bobGames "me" "bob" bobAgg (by decide), ?_⟩
  have h67 : jsRound ((2 : ℚ) / 3 * 100) = 67 := by
    rw [jsRound, Int.floor_eq_iff]
    norm_num
  have h33 : jsRound ((3 : ℚ)⁻¹ * 100) = 33 := by
    rw [jsRound, Int.floor_eq_iff]
    norm_num
  have h100 : jsRound ((100 : ℚ)) = 100 := by
    rw [jsRound, Int.floor_eq_iff]
    norm_num
  simp [processOpponents, bobAgg, bobGames, h67, h33, h100]

end CW
